import Mathlib

/-!
Verification development for the `transfer` package of MysteriumNetwork/payments
(gas-price incrementor). The Go source in `src/transfer/incrementor.go` is
embedded shallowly: pure helpers become Lean functions, the watcher loop becomes
a step function over explicit events, blockchain/storage responses are passed in
as explicit oracle values, and every persistence write (`UpsertIncrementorTransaction`)
is collected into an explicit list so that theorems can speak about what was persisted.

Definitions whose Go source is not part of `src/` (they live in `transaction.go`,
which only `incrementor.go` references) are modelled from the specification and
carry a doc comment starting with `Modelled from the spec:`.
-/

namespace Transfer

/-! ## Addresses and hex encoding

`go-ethereum`'s `common.Address` is 20 bytes; we model it as a natural number
below `2^160`.  `common.HexToAddress` parses a hex string (optional `0x` prefix,
case-insensitive, odd length left-padded, overlong input cropped to the last
20 bytes); `Address.Hex` renders `0x` followed by 40 hex digits.  The real
`Hex` applies EIP-55 checksum capitalization; since parsing is case-insensitive
and the only literal string the embedded code compares against is the all-digit
zero-address string, we render lowercase digits. -/

/-- Value of one hex digit character, `none` for a non-hex character
(mirrors `encoding/hex` digit decoding). -/
def hexDigitVal (c : Char) : Option ℕ :=
  if '0' ≤ c ∧ c ≤ '9' then some (c.toNat - '0'.toNat)
  else if 'a' ≤ c ∧ c ≤ 'f' then some (c.toNat - 'a'.toNat + 10)
  else if 'A' ≤ c ∧ c ≤ 'F' then some (c.toNat - 'A'.toNat + 10)
  else none

/-- Hex character for a digit value below 16 (lowercase, as produced by
`encoding/hex`). -/
def hexDigitChar (n : ℕ) : Char :=
  if n < 10 then Char.ofNat ('0'.toNat + n) else Char.ofNat ('a'.toNat + n - 10)

/-- Go `hex.DecodeString`: consume pairs of hex characters into bytes, stopping at
the first invalid pair (Go's `Hex2Bytes` discards the error and keeps the bytes
decoded so far). -/
def decodeHexBytes : List Char → List ℕ
  | c1 :: c2 :: rest =>
    match hexDigitVal c1, hexDigitVal c2 with
    | some h, some l => (16 * h + l) :: decodeHexBytes rest
    | _, _ => []
  | _ => []

/-- Go `common.BytesToAddress`: big-endian byte value, cropped to the last
20 bytes. -/
def bytesToAddress (bs : List ℕ) : ℕ :=
  (bs.foldl (fun acc b => acc * 256 + b) 0) % 2 ^ 160

/-- Go `common.HexToAddress`: strip an optional `0x`/`0X`, left-pad odd length,
decode hex pairs, crop to 20 bytes. -/
def hexToAddress (s : String) : ℕ :=
  let cs := s.data
  let cs := if cs.take 2 = ['0', 'x'] ∨ cs.take 2 = ['0', 'X'] then cs.drop 2 else cs
  let cs := if cs.length % 2 = 1 then '0' :: cs else cs
  bytesToAddress (decodeHexBytes cs)

/-- Hex digits of `v`, least-significant first, padded/cropped to width `w`. -/
def natToHexAux : ℕ → ℕ → List Char
  | 0, _ => []
  | w + 1, v => hexDigitChar (v % 16) :: natToHexAux w (v / 16)

/-- Go `common.Address.Hex`: `0x` followed by the 40 hex digits of the address
(lowercase; see the note above on EIP-55 capitalization). -/
def addressHex (a : ℕ) : String :=
  ⟨'0' :: 'x' :: (natToHexAux 40 a).reverse⟩

/-! ## Go error values

`errors.Is` compares error identity along the `%w`-wrap chain; distinct
`errors.New` values with equal messages are *not* identical.  We model the three
sentinel errors the incrementor tests for (`core.ErrNonceTooHigh`,
`core.ErrNonceTooLow`, `ethereum.NotFound`) as their own constructors, any other
leaf error by its message, and `fmt.Errorf("...: %w", err)` wrapping by a prefix
plus the inner error. -/

deriving instance DecidableEq for Except

inductive Sentinel where
  | nonceTooHigh
  | nonceTooLow
  | notFound
deriving DecidableEq, Repr

inductive GoErr where
  | sentinel (s : Sentinel)
  | other (msg : String)
  | wrap (prefixMsg : String) (inner : GoErr)
deriving DecidableEq, Repr

/-- The `Error()` message. The sentinel messages are the ones defined by
go-ethereum; wrapping with `fmt.Errorf("p: %w", e)` yields `"p: " ++ e.Error()`. -/
def GoErr.errMsg : GoErr → String
  | .sentinel .nonceTooHigh => "nonce too high"
  | .sentinel .nonceTooLow => "nonce too low"
  | .sentinel .notFound => "not found"
  | .other m => m
  | .wrap p inner => p ++ ": " ++ inner.errMsg

/-- Go `errors.Unwrap`: only `%w`-wrapped errors unwrap. -/
def GoErr.unwrapErr : GoErr → Option GoErr
  | .wrap _ inner => some inner
  | _ => none

/-- Go `errors.Is e (sentinel s)`: identity with the sentinel anywhere along the
unwrap chain. -/
def errIs : GoErr → Sentinel → Bool
  | .sentinel s', s => s' == s
  | .wrap _ inner, s => errIs inner s
  | .other _, _ => false

/-- Go `GasPriceIncremenetor.isBlockchainErrorUnhandleable` from
`src/transfer/incrementor.go`: `errors.Is` against the three sentinels, then a
single `errors.Unwrap` followed by a string comparison of the unwrapped message
against the two nonce-error messages. -/
def isBlockchainErrorUnhandleable (e : GoErr) : Bool :=
  if errIs e .nonceTooHigh || errIs e .nonceTooLow || errIs e .notFound then
    true
  else
    match e.unwrapErr with
    | none => false
    | some u => u.errMsg == "nonce too low" || u.errMsg == "nonce too high"

/-! ## Data model

`Transaction`, `TransactionOpts`, `TxState` and the helpers `validate`,
`newTransaction`, `getLatestTx`, `rebuiledWithNewGasPrice`, `isExpired` live in
the repository's `transaction.go`, which is not part of `src/`; they are
modelled from the specification (spec §3, §4.1).  An encoded
`types.Transaction` (`LatestTx` bytes) is modelled as `Option EthTx`: `some`
for bytes that decode to a transaction, `none` for undecodable bytes; the Go
zero value `Transaction{}` has nil `LatestTx`, hence `none`. -/

/-- The semantic payload of a go-ethereum `types.Transaction` that the
incrementor inspects: its gas price, plus opaque remaining fields (nonce,
recipient, value, data) collapsed into `payload`. -/
structure EthTx where
  gasPrice : ℤ
  chainID : ℤ
  payload : ℕ
deriving DecidableEq, Repr

/-- Modelled from the spec: transaction states `Pending`, `PriceIncreased`,
`Failed`, `Succeeded` (§3), plus `empty` for the Go zero value of the state
string, as carried by a zero `Transaction{}` value. -/
inductive TxState where
  | Pending
  | PriceIncreased
  | Failed
  | Succeed
  | empty
deriving DecidableEq, Repr

/-- Modelled from the spec (§3): per-transaction policy. Durations are int64
nanoseconds, `PriceMultiplier` is a float64 (every float64 value is a rational;
rounding of the `big.Float` arithmetic is abstracted to exact rationals),
`MaxPrice` is a possibly-nil `*big.Int`. -/
structure TransactionOpts where
  Timeout : ℤ
  CheckInterval : ℤ
  IncreaseInterval : ℤ
  PriceMultiplier : ℚ
  MaxPrice : Option ℤ
deriving DecidableEq, Repr

/-- Modelled from the spec (§3): the persisted unit of work.  `CreatedAt` is
the creation timestamp used by the `Timeout` deadline ("absolute deadline from
creation"). -/
structure Transaction where
  UniqueID : String
  ChainID : ℤ
  SenderAddressHex : String
  State : TxState
  Opts : TransactionOpts
  LatestTx : Option EthTx
  CreatedAt : ℤ
deriving DecidableEq, Repr

/-- The Go zero value `Transaction{}` (all fields zero / nil). -/
def zeroTransaction : Transaction :=
  { UniqueID := ""
    ChainID := 0
    SenderAddressHex := ""
    State := .empty
    Opts :=
      { Timeout := 0
        CheckInterval := 0
        IncreaseInterval := 0
        PriceMultiplier := 0
        MaxPrice := none }
    LatestTx := none
    CreatedAt := 0 }

/-- Modelled from the spec (§3, validation invariant): "sane positive
intervals, multiplier > 1, non-nil max price". -/
def TransactionOpts.validate (o : TransactionOpts) : Except GoErr Unit :=
  if o.Timeout ≤ 0 then .error (.other "timeout must be positive")
  else if o.CheckInterval ≤ 0 then .error (.other "check interval must be positive")
  else if o.IncreaseInterval ≤ 0 then .error (.other "increase interval must be positive")
  else if o.PriceMultiplier ≤ 1 then .error (.other "price multiplier must be greater than 1")
  else match o.MaxPrice with
    | none => .error (.other "max price must not be nil")
    | some _ => .ok ()

/-- Modelled from the spec (§4.1): `newTransaction` builds a record in state
`Pending` whose `LatestTx` is the encoding of the supplied transaction; the
fresh unique id and the creation timestamp are passed in explicitly. -/
def newTransaction (ethTx : EthTx) (sender : ℕ) (opts : TransactionOpts)
    (uid : String) (now : ℤ) : Transaction :=
  { UniqueID := uid
    ChainID := ethTx.chainID
    SenderAddressHex := addressHex sender
    State := .Pending
    Opts := opts
    LatestTx := some ethTx
    CreatedAt := now }

/-- Modelled from the spec (§4.1, status-check / gas-increase algorithms):
decode the stored `LatestTx` bytes; undecodable bytes (in particular the nil
bytes of a zero `Transaction{}`) yield an unmarshalling error. -/
def Transaction.getLatestTx (tx : Transaction) : Except GoErr EthTx :=
  match tx.LatestTx with
  | some t => .ok t
  | none => .error (.other "failed to unmarshal latest transaction")

/-- Modelled from the spec (§4.1): "rebuild an equivalent transaction carrying
the same semantic payload (recipient, value, nonce, chain) but the new gas
price". -/
def rebuiledWithNewGasPrice (org : EthTx) (newGasPrice : ℤ) : EthTx :=
  { org with gasPrice := newGasPrice }

/-- Modelled from the spec (§3): `Timeout` is an "absolute deadline from
creation after which the transaction is abandoned". -/
def Transaction.isExpired (tx : Transaction) (now : ℤ) : Bool :=
  decide (tx.CreatedAt + tx.Opts.Timeout < now)

/-! ## Signer registry (`safeSigners`, `Signers`)

The Go registry is a `map[common.Address]SignatureFunc`; we model it as an
association list of addresses and signing capabilities, generic in nothing:
`SignatureFunc` is the capability type itself. -/

/-- Go `SignatureFunc`: sign a transaction for a chain, or fail. -/
abbrev SignatureFunc : Type := EthTx → ℤ → Except GoErr EthTx

/-- Go `Signers`: the registry contents keyed by address. -/
abbrev Signers : Type := List (ℕ × SignatureFunc)

/-- Go `safeSigners.getSignerFunc` from `src/transfer/incrementor.go`: the legacy
fallback first (exactly one signer registered and the lookup string is empty or
the zero-address hex string returns the sole signer), otherwise parse the string
with `common.HexToAddress` and look the address up in the map. -/
def getSignerFunc (signers : Signers) (senderAddressHex : String) : Option SignatureFunc :=
  if signers.length = 1 ∧ (senderAddressHex = "" ∨ senderAddressHex = addressHex 0) then
    signers.head?.map Prod.snd
  else
    (signers.lookup (hexToAddress senderAddressHex))

/-- Go `GasPriceIncremenetor.CanSign`: resolve `sender.Hex()` through the
registry. -/
def CanSign (signers : Signers) (sender : ℕ) : Bool :=
  (getSignerFunc signers (addressHex sender)).isSome

/-- Go `GasPriceIncremenetor.CanQueue`: ask persistence for the sender's queue
length (the persistence response is the oracle `getQueue`); on error return
`(false, err)`, otherwise compare against `MaxQueuePerSigner`. -/
def CanQueue (getQueue : String → Except GoErr ℤ) (maxQueuePerSigner : ℤ)
    (sender : ℕ) : Bool × Option GoErr :=
  match getQueue (addressHex sender) with
  | .error e => (false, some e)
  | .ok length => (decide (length < maxQueuePerSigner), none)

/-- Go `GasPriceIncremenetor.InsertInitial`: validate the opts, build the new
record, upsert it.  The second component collects the persistence writes
issued; `upsertRes` is the storage oracle's response to the upsert. -/
def InsertInitial (upsertRes : Except GoErr Unit) (ethTx : EthTx)
    (opts : TransactionOpts) (sender : ℕ) (uid : String) (now : ℤ) :
    Except GoErr Unit × List Transaction :=
  match opts.validate with
  | .error e => (.error (.wrap "invalid opts given" e), [])
  | .ok _ =>
    let newTx := newTransaction ethTx sender opts uid now
    (upsertRes, [newTx])

/-! ## Persistence transitions

`transactionFailed`, `transactionSuccess`, `transactionPriceIncreased` from
`src/transfer/incrementor.go`.  Each returns the Go result together with the
list of persistence writes it issued (the upsert is issued regardless of
whether the storage oracle reports success). -/

def transactionFailed (tx : Transaction) (upsert : Except GoErr Unit) :
    Except GoErr Unit × List Transaction :=
  let tx' := { tx with State := TxState.Failed }
  match upsert with
  | .error e => (.error (.wrap "failed marking transaction as failed" e), [tx'])
  | .ok _ => (.ok (), [tx'])

def transactionSuccess (tx : Transaction) (upsert : Except GoErr Unit) :
    Except GoErr Unit × List Transaction :=
  let tx' := { tx with State := TxState.Succeed }
  match upsert with
  | .error e => (.error (.wrap "failed marking transaction succeed" e), [tx'])
  | .ok _ => (.ok (), [tx'])

def transactionPriceIncreased (tx : Transaction) (newTx : EthTx)
    (upsert : Except GoErr Unit) : Except GoErr Transaction × List Transaction :=
  let tx' := { tx with State := TxState.PriceIncreased, LatestTx := some newTx }
  match upsert with
  | .error e => (.error (.wrap "failed to update transaction after price increase" e), [tx'])
  | .ok _ => (.ok tx', [tx'])

/-! ## Gas-price increase -/

/-- The gas-price computation of `increaseGasPrice`:
`new(big.Float).Mul(big.NewFloat(multiplier), big.Float(price)).Int(nil)` —
a float multiply truncated back to an integer.  The multiply is modelled as
the exact rational product (finite `big.Float` precision abstracted): for
`multiplier = num / den` with `den > 0`, truncation toward zero of
`(num / den) * price` is exactly `Int.tdiv (num * price) den`. -/
def bigFloatTruncMul (multiplier : ℚ) (price : ℤ) : ℤ :=
  Int.tdiv (multiplier.num * price) multiplier.den

/-- Go `GasPriceIncremenetor.signAndSend`: resolve the signer for the sender
address, sign, broadcast.  `send` is the chain oracle's response to
`SendTransaction`; the second component lists the transactions actually handed
to `SendTransaction` (the broadcast attempts). -/
def signAndSend (signers : Signers) (ethTx : EthTx) (chainID : ℤ)
    (senderAddrHex : String) (send : Except GoErr Unit) :
    Except GoErr EthTx × List EthTx :=
  match getSignerFunc signers senderAddrHex with
  | none => (.error (.other ("cannot retry, no signer for address: " ++ senderAddrHex)), [])
  | some signer =>
    match signer ethTx chainID with
    | .error e => (.error (.wrap "failed to sign a transaction" e), [])
    | .ok signedTx =>
      match send with
      | .error e => (.error (.wrap "failed send a transaction" e), [signedTx])
      | .ok _ => (.ok signedTx, [signedTx])

/-- Go `GasPriceIncremenetor.increaseGasPrice`: decode the latest transaction,
compute the bumped gas price, fail permanently past `MaxPrice`, otherwise
rebuild, sign and broadcast, and persist `PriceIncreased` on success.  Returns
the Go result, the persistence writes issued, and the broadcast attempts.
Note the Go source dereferences `tx.Opts.MaxPrice` unconditionally, panicking
when it is nil; the panic is modelled as an error result with no writes. -/
def increaseGasPrice (signers : Signers) (tx : Transaction)
    (send upsert : Except GoErr Unit) :
    Except GoErr Transaction × List Transaction × List EthTx :=
  match tx.getLatestTx with
  | .error e => (.error e, [], [])
  | .ok org =>
    let newGasPrice := bigFloatTruncMul tx.Opts.PriceMultiplier org.gasPrice
    match tx.Opts.MaxPrice with
    | none => (.error (.other "runtime panic: nil max price"), [], [])
    | some maxPrice =>
      if maxPrice < newGasPrice then
        match transactionFailed tx upsert with
        | (.error e, ws) => (.error e, ws, [])
        | (.ok _, ws) => (.error (.other "gas price limit reached"), ws, [])
      else
        match signAndSend signers (rebuiledWithNewGasPrice org newGasPrice)
            tx.ChainID tx.SenderAddressHex send with
        | (.error _, sent) =>
          match transactionFailed tx upsert with
          | (.error e, ws) => (.error e, ws, sent)
          | (.ok _, ws) => (.ok zeroTransaction, ws, sent)
        | (.ok signedTx, sent) =>
          match transactionPriceIncreased tx signedTx upsert with
          | (.error e, ws) => (.error e, ws, sent)
          | (.ok tx', ws) => (.ok tx', ws, sent)

/-! ## Status check -/

inductive BCTxStatus where
  | Pending
  | Failed
  | Succeeded
deriving DecidableEq, Repr

/-- A go-ethereum `types.Receipt`, of which only `Status` is inspected
(`ReceiptStatusFailed = 0`, `ReceiptStatusSuccessful = 1`). -/
structure Receipt where
  status : ℕ
deriving DecidableEq, Repr

/-- Go `GasPriceIncremenetor.bcTxStatusFromReceipt`: map the receipt status;
an unrecognized status is logged and conservatively treated as `Failed`. -/
def bcTxStatusFromReceipt (rcp : Receipt) : BCTxStatus :=
  if rcp.status = 1 then .Succeeded
  else if rcp.status = 0 then .Failed
  else .Failed

/-- Go `GasPriceIncremenetor.getTxStatus`: decode the latest transaction, ask the
chain whether it is pending (`byHash` oracle: the `isPending` flag), otherwise
fetch the receipt (`receipt` oracle) and map its status. -/
def getTxStatus (tx : Transaction) (byHash : Except GoErr Bool)
    (receipt : Except GoErr Receipt) : Except GoErr BCTxStatus :=
  match tx.getLatestTx with
  | .error e => .error (.wrap "cannot get tx status, malformed internal tx object" e)
  | .ok _ =>
    match byHash with
    | .error e => .error (.wrap "failed to get transaction by hash" e)
    | .ok pending =>
      if pending then .ok .Pending
      else
        match receipt with
        | .error e => .error (.wrap "failed to get transaction receipt" e)
        | .ok rcp => .ok (bcTxStatusFromReceipt rcp)

/-! ## The watcher loop (`watchAndIncrement`) as a step function

One loop iteration of `watchAndIncrement` reacts to whichever timer or signal
fired; an event carries the oracle responses consumed during that iteration
(`incTick` carries two upsert responses because the unhandleable-error path
issues a second upsert after the one inside `increaseGasPrice`). -/

inductive WatchEvent where
  | stop
  | checkTick (byHash : Except GoErr Bool) (receipt : Except GoErr Receipt)
      (upsert : Except GoErr Unit)
  | incTick (send : Except GoErr Unit) (upsert1 upsert2 : Except GoErr Unit)
  | timedOut (upsert : Except GoErr Unit)

/-- Outcome of one loop iteration: keep watching with a (possibly replaced)
transaction, or return from `watchAndIncrement` with `nil` or an error. -/
inductive StepRes where
  | cont (tx : Transaction)
  | exited (res : Option GoErr)
deriving DecidableEq, Repr

/-- One iteration of the `select` loop of `watchAndIncrement`
(`src/transfer/incrementor.go`).  Returns the outcome, the persistence writes
issued during the iteration, and the broadcast attempts. -/
def watchStep (signers : Signers) (tx : Transaction) :
    WatchEvent → StepRes × List Transaction × List EthTx
  | .stop => (.exited none, [], [])
  | .checkTick byHash receipt upsert =>
    match getTxStatus tx byHash receipt with
    | .error e =>
      if isBlockchainErrorUnhandleable e then
        match transactionFailed tx upsert with
        | (.error e2, ws) => (.exited (some e2), ws, [])
        | (.ok _, ws) => (.exited none, ws, [])
      else (.exited (some e), [], [])
    | .ok status =>
      if status = BCTxStatus.Succeeded then
        match transactionSuccess tx upsert with
        | (.error e2, ws) => (.exited (some e2), ws, [])
        | (.ok _, ws) => (.exited none, ws, [])
      else (.cont tx, [], [])
  | .incTick send upsert1 upsert2 =>
    match increaseGasPrice signers tx send upsert1 with
    | (.error e, ws, sent) =>
      if isBlockchainErrorUnhandleable e then
        match transactionFailed tx upsert2 with
        | (.error e2, ws2) => (.exited (some e2), ws ++ ws2, sent)
        | (.ok _, ws2) => (.exited none, ws ++ ws2, sent)
      else (.exited (some e), ws, sent)
    | (.ok newTx, ws, sent) => (.cont newTx, ws, sent)
  | .timedOut upsert =>
    match transactionFailed tx upsert with
    | (.error e, ws) => (.exited (some e), ws, [])
    | (.ok _, ws) => (.exited none, ws, [])

/-- A whole run of `watchAndIncrement`: fold `watchStep` over the events until
the loop returns.  Yields all persistence writes in order, and `some res` when
the loop returned (`none` while still watching after the given events). -/
def watchRun (signers : Signers) : Transaction → List WatchEvent →
    List Transaction × Option (Option GoErr)
  | _, [] => ([], none)
  | tx, ev :: evs =>
    match watchStep signers tx ev with
    | (.cont tx', ws, _) =>
      let rest := watchRun signers tx' evs
      (ws ++ rest.1, rest.2)
    | (.exited res, ws, _) => (ws, some res)

/-- The tail of `tryWatch` (`src/transfer/incrementor.go`): when
`watchAndIncrement` returned an error, log it and — only if the transaction is
expired — persist `Failed`.  Returns the persistence writes issued. -/
def tryWatchFinish (tx : Transaction) (now : ℤ) (watchRes : Option GoErr)
    (upsert : Except GoErr Unit) : List Transaction :=
  match watchRes with
  | none => []
  | some _ =>
    if tx.isExpired now then (transactionFailed tx upsert).2 else []

/-! ## The poll loop (`Run`) -/

/-- The `switch tx.State` of `Run`'s `process` closure: terminal transactions
are force-skipped, everything else is handed to `tryWatch`. -/
def processShouldWatch (tx : Transaction) : Bool :=
  match tx.State with
  | .Failed => false
  | .Succeed => false
  | _ => true

/-- The transactions of one poll batch that `Run` hands to `tryWatch`. -/
def runProcessSelect (txs : List Transaction) : List Transaction :=
  txs.filter processShouldWatch

/-! ## Side conditions and fixtures

A storage (upsert) error is *sane* when it does not masquerade as one of the
three blockchain sentinel errors: it neither wraps a sentinel nor carries
exactly a nonce-error message.  The watcher classifies errors with
`isBlockchainErrorUnhandleable` even when they originate from its own storage
upserts, so a storage layer returning, say, `core.ErrNonceTooLow` from an
upsert would be classified as a blockchain error; sanity rules that out. -/

def saneStorageErr (e : GoErr) : Bool :=
  !(errIs e .nonceTooHigh || errIs e .nonceTooLow || errIs e .notFound
    || (e.errMsg == "nonce too low") || (e.errMsg == "nonce too high"))

def saneUpsert : Except GoErr Unit → Bool
  | .ok _ => true
  | .error e => saneStorageErr e

/-- Sanity of the storage responses carried by an event (only the upsert
response consumed inside `increaseGasPrice` matters). -/
def eventSaneB : WatchEvent → Bool
  | .incTick _ upsert1 _ => saneUpsert upsert1
  | _ => true

/-- A signing capability that signs successfully without altering the
transaction (concrete fixture). -/
def sigOk : SignatureFunc := fun t _ => .ok t

/-- Concrete valid options: 2x multiplier, price ceiling 100. -/
def sampleOpts : TransactionOpts :=
  { Timeout := 100
    CheckInterval := 10
    IncreaseInterval := 10
    PriceMultiplier := mkRat 2 1
    MaxPrice := some 100 }

/-- Concrete pending transaction with gas price 60 whose next bump (120)
exceeds the ceiling 100. -/
def sampleTxHigh : Transaction :=
  { UniqueID := "tx-2"
    ChainID := 1
    SenderAddressHex := addressHex 1
    State := .Pending
    Opts := sampleOpts
    LatestTx := some { gasPrice := 60, chainID := 1, payload := 0 }
    CreatedAt := 0 }

/-- Concrete pending transaction with gas price 40, sender address 1. -/
def sampleTx : Transaction :=
  { UniqueID := "tx-1"
    ChainID := 1
    SenderAddressHex := addressHex 1
    State := .Pending
    Opts := sampleOpts
    LatestTx := some { gasPrice := 40, chainID := 1, payload := 0 }
    CreatedAt := 0 }

/-! ## Lemmas about the hex codec -/

theorem hexDigitVal_hexDigitChar {d : ℕ} (h : d < 16) :
    hexDigitVal (hexDigitChar d) = some d := by
  interval_cases d <;> decide

theorem natToHexAux_length (w v : ℕ) : (natToHexAux w v).length = w := by
  induction w generalizing v with
  | zero => rfl
  | succ w ih => simp [natToHexAux, ih]

theorem natToHexAux_valid (w v : ℕ) :
    ∀ c ∈ natToHexAux w v, (hexDigitVal c).isSome := by
  induction w generalizing v with
  | zero => simp [natToHexAux]
  | succ w ih =>
    intro c hc
    simp only [natToHexAux, List.mem_cons] at hc
    rcases hc with rfl | hc
    · rw [hexDigitVal_hexDigitChar (Nat.mod_lt _ (by norm_num))]
      rfl
    · exact ih (v / 16) c hc

theorem decodeHexBytes_append : ∀ xs ys : List Char,
    (∀ c ∈ xs, (hexDigitVal c).isSome) → xs.length % 2 = 0 →
    decodeHexBytes (xs ++ ys) = decodeHexBytes xs ++ decodeHexBytes ys
  | [], ys, _, _ => by simp [decodeHexBytes]
  | [c], _, _, hlen => by simp at hlen
  | c1 :: c2 :: rest, ys, hv, hlen => by
    obtain ⟨d1, hd1⟩ := Option.isSome_iff_exists.mp (hv c1 (by simp))
    obtain ⟨d2, hd2⟩ := Option.isSome_iff_exists.mp (hv c2 (by simp))
    have hlen' : rest.length % 2 = 0 := by simp [List.length_cons] at hlen; omega
    have ih := decodeHexBytes_append rest ys
      (fun c hc => hv c (by simp [hc])) hlen'
    simp [decodeHexBytes, hd1, hd2, ih]

theorem foldl_decodeHexBytes : ∀ xs : List Char,
    (∀ c ∈ xs, (hexDigitVal c).isSome) → xs.length % 2 = 0 → ∀ acc : ℕ,
    List.foldl (fun a b => a * 256 + b) acc (decodeHexBytes xs)
      = List.foldl (fun a c => a * 16 + (hexDigitVal c).getD 0) acc xs
  | [], _, _, _ => rfl
  | [c], _, hlen, _ => by simp at hlen
  | c1 :: c2 :: rest, hv, hlen, acc => by
    obtain ⟨d1, hd1⟩ := Option.isSome_iff_exists.mp (hv c1 (by simp))
    obtain ⟨d2, hd2⟩ := Option.isSome_iff_exists.mp (hv c2 (by simp))
    have hlen' : rest.length % 2 = 0 := by simp [List.length_cons] at hlen; omega
    have ih := foldl_decodeHexBytes rest
      (fun c hc => hv c (by simp [hc])) hlen'
    simp only [decodeHexBytes, hd1, hd2, List.foldl_cons, ih, Option.getD_some]
    have hacc : acc * 256 + (16 * d1 + d2) = (acc * 16 + d1) * 16 + d2 := by ring
    rw [hacc]

theorem foldl_natToHexAux (w : ℕ) : ∀ v : ℕ,
    List.foldl (fun a c => a * 16 + (hexDigitVal c).getD 0) 0
      ((natToHexAux w v).reverse) = v % 16 ^ w := by
  induction w with
  | zero => intro v; simp [natToHexAux, Nat.mod_one]
  | succ w ih =>
    intro v
    have hlt : v % 16 < 16 := Nat.mod_lt _ (by norm_num)
    simp only [natToHexAux, List.reverse_cons, List.foldl_append, List.foldl_cons,
      List.foldl_nil, ih (v / 16), hexDigitVal_hexDigitChar hlt, Option.getD_some]
    have h16 : (16 : ℕ) ^ (w + 1) = 16 * 16 ^ w := by ring
    rw [h16, Nat.mod_mul]
    ring

/-- Go `HexToAddress` is a left inverse of `Hex` up to the 20-byte crop. -/
theorem hexToAddress_addressHex (a : ℕ) :
    hexToAddress (addressHex a) = a % 2 ^ 160 := by
  have hvalid : ∀ c ∈ (natToHexAux 40 a).reverse, (hexDigitVal c).isSome := by
    intro c hc
    exact natToHexAux_valid 40 a c (List.mem_reverse.mp hc)
  have hlen : ((natToHexAux 40 a).reverse).length = 40 := by
    rw [List.length_reverse, natToHexAux_length]
  have h1 : hexToAddress (addressHex a)
      = bytesToAddress (decodeHexBytes ((natToHexAux 40 a).reverse)) := by
    simp [hexToAddress, addressHex, List.take, hlen]
  rw [h1, bytesToAddress, foldl_decodeHexBytes _ hvalid (by rw [hlen]) 0,
    foldl_natToHexAux]
  have h16 : (16 : ℕ) ^ 40 = 2 ^ 160 := by norm_num
  rw [h16]
  exact Nat.mod_mod_of_dvd a dvd_rfl

theorem addressHex_injOn {a b : ℕ} (ha : a < 2 ^ 160) (hb : b < 2 ^ 160)
    (h : addressHex a = addressHex b) : a = b := by
  have := congrArg hexToAddress h
  rwa [hexToAddress_addressHex, hexToAddress_addressHex,
    Nat.mod_eq_of_lt ha, Nat.mod_eq_of_lt hb] at this

theorem addressHex_ne_empty (a : ℕ) : addressHex a ≠ "" := by
  intro h
  have := congrArg (fun s => s.data.length) h
  simp [addressHex] at this

/-- A successful plain-map lookup returns a value stored in the list. -/
theorem exists_of_lookup_eq_some {α : Type} {l : List (ℕ × α)} {k : ℕ} {f : α}
    (h : l.lookup k = some f) : ∃ p ∈ l, p.2 = f := by
  induction l with
  | nil => simp [List.lookup] at h
  | cons p rest ih =>
    cases hk : (k == p.1) with
    | true =>
      have hpf : p.2 = f := by simpa [List.lookup, hk] using h
      exact ⟨p, by simp, hpf⟩
    | false =>
      simp only [List.lookup, hk] at h
      obtain ⟨q, hq, hqf⟩ := ih h
      exact ⟨q, by simp [hq], hqf⟩

theorem addressHex_eq_zero_iff {b : ℕ} (hb : b < 2 ^ 160) :
    addressHex b = addressHex 0 ↔ b = 0 := by
  constructor
  · intro h
    exact addressHex_injOn hb (by norm_num) h
  · intro h
    rw [h]

/-! ## Claims -/

/-- C6: if exactly one signer is registered, resolving with an empty or
zero-address string returns that sole signer regardless of its real address;
and for every address not present in the registry, when the legacy fallback
does not apply, resolution reports not found. -/
theorem claim_C6_signer_resolution (signers : Signers) :
    (∀ addr f, signers = [(addr, f)] →
      getSignerFunc signers "" = some f
        ∧ getSignerFunc signers (addressHex 0) = some f)
    ∧ (∀ b, b < 2 ^ 160 → ¬(signers.length = 1 ∧ b = 0) →
        signers.lookup b = none → getSignerFunc signers (addressHex b) = none) := by
  constructor
  · rintro addr f rfl
    constructor
    · simp [getSignerFunc]
    · simp [getSignerFunc]
  · intro b hb hnf hlook
    have hcond : ¬(signers.length = 1
        ∧ (addressHex b = "" ∨ addressHex b = addressHex 0)) := by
      rintro ⟨hlen, hb0 | hb0⟩
      · exact addressHex_ne_empty b hb0
      · exact hnf ⟨hlen, (addressHex_eq_zero_iff hb).mp hb0⟩
    rw [getSignerFunc, if_neg hcond, hexToAddress_addressHex,
      Nat.mod_eq_of_lt hb, hlook]

/-- C6 witness: a registry with the single signer `sigOk` at address 7
resolves the empty string and the zero-address string to `sigOk`, and fails to
resolve the unregistered address 5. -/
theorem claim_C6_signer_resolution_witness :
    (getSignerFunc [(7, sigOk)] "" = some sigOk
      ∧ getSignerFunc [(7, sigOk)] (addressHex 0) = some sigOk)
    ∧ getSignerFunc [(7, sigOk)] (addressHex 5) = none := by
  refine ⟨(claim_C6_signer_resolution [(7, sigOk)]).1 7 sigOk rfl, ?_⟩
  exact (claim_C6_signer_resolution [(7, sigOk)]).2 5 (by norm_num)
    (by intro h; exact absurd h.2 (by norm_num)) rfl

/-- C7 counterexample: with the single signer registered at address 7,
`CanSign` of the zero address returns true although no signing capability is
registered for that exact address — the legacy fallback makes `CanSign` true
for the zero address as well. -/
theorem claim_C7_counterexample :
    CanSign [(7, sigOk)] 0 = true
      ∧ (List.lookup 0 [((7 : ℕ), sigOk)]).isSome = false := by
  constructor
  · decide
  · rfl

/-- C7 (amended): `CanSign address` is true iff a signing capability is
registered for that exact address, or the legacy single-signer fallback
applies (exactly one signer registered and the address is the zero address). -/
theorem claim_C7_cansign (signers : Signers) (sender : ℕ)
    (h : sender < 2 ^ 160) :
    CanSign signers sender = true ↔
      ((signers.lookup sender).isSome ∨ (signers.length = 1 ∧ sender = 0)) := by
  rw [CanSign, getSignerFunc]
  by_cases hc : signers.length = 1
      ∧ (addressHex sender = "" ∨ addressHex sender = addressHex 0)
  · have hzero : sender = 0 := by
      rcases hc.2 with hc2 | hc2
      · exact absurd hc2 (addressHex_ne_empty sender)
      · exact (addressHex_eq_zero_iff h).mp hc2
    rw [if_pos hc]
    cases signers with
    | nil => simp at hc
    | cons p rest =>
      simp only [List.head?, Option.map_some, Option.isSome_some]
      constructor
      · intro _
        exact Or.inr ⟨hc.1, hzero⟩
      · intro _
        rfl
  · rw [if_neg hc, hexToAddress_addressHex, Nat.mod_eq_of_lt h]
    constructor
    · intro hl
      exact Or.inl hl
    · rintro (hl | hr)
      · exact hl
      · exact absurd ⟨hr.1, Or.inr ((addressHex_eq_zero_iff h).mpr hr.2)⟩ hc

/-- C7 witness: the amended characterization applied at the registry
`[(7, sigOk)]` and address 5 (not registered, fallback inapplicable). -/
theorem claim_C7_cansign_witness :
    (5 : ℕ) < 2 ^ 160
      ∧ (CanSign [(7, sigOk)] 5 = true ↔
        ((List.lookup 5 [((7 : ℕ), sigOk)]).isSome
          ∨ ([((7 : ℕ), sigOk)].length = 1 ∧ (5 : ℕ) = 0))) :=
  ⟨by norm_num, claim_C7_cansign [(7, sigOk)] 5 (by norm_num)⟩

/-- C9: `CanQueue` is true exactly when the queue length reported by
persistence is strictly below `MaxQueuePerSigner`, and a persistence failure
yields `(false, err)`. -/
theorem claim_C9_canqueue (getQueue : String → Except GoErr ℤ)
    (maxQueuePerSigner : ℤ) (sender : ℕ) :
    (∀ len, getQueue (addressHex sender) = .ok len →
      CanQueue getQueue maxQueuePerSigner sender
        = (decide (len < maxQueuePerSigner), none))
    ∧ (∀ e, getQueue (addressHex sender) = .error e →
      CanQueue getQueue maxQueuePerSigner sender = (false, some e))
    ∧ ((CanQueue getQueue maxQueuePerSigner sender).1 = true ↔
      ∃ len, getQueue (addressHex sender) = .ok len ∧ len < maxQueuePerSigner) := by
  refine ⟨?_, ?_, ?_⟩
  · intro len hq
    rw [CanQueue, hq]
  · intro e hq
    rw [CanQueue, hq]
  · rw [CanQueue]
    cases hq : getQueue (addressHex sender) with
    | error e => simp [hq]
    | ok len => simp [hq]

/-- C9 witness: queue length 3 against a ceiling of 5 admits queueing. -/
theorem claim_C9_canqueue_witness :
    (fun _ : String => (Except.ok 3 : Except GoErr ℤ)) (addressHex 0) = .ok 3
      ∧ CanQueue (fun _ => .ok 3) 5 0 = (decide ((3 : ℤ) < 5), none) :=
  ⟨rfl, (claim_C9_canqueue (fun _ => .ok 3) 5 0).1 3 rfl⟩

/-- C8: `InsertInitial` with invalid opts returns an error and issues no
persistence write; with valid opts it issues exactly one upsert, of a new
record in state `Pending` whose `LatestTx` is the supplied transaction.
(The function body contains no watch operation: watching starts only from the
poll loop.) -/
theorem claim_C8_insert_initial (upsertRes : Except GoErr Unit) (ethTx : EthTx)
    (opts : TransactionOpts) (sender : ℕ) (uid : String) (now : ℤ) :
    (∀ e, opts.validate = .error e →
      InsertInitial upsertRes ethTx opts sender uid now
        = (.error (.wrap "invalid opts given" e), []))
    ∧ (opts.validate = .ok () →
      InsertInitial upsertRes ethTx opts sender uid now
          = (upsertRes, [newTransaction ethTx sender opts uid now])
        ∧ (newTransaction ethTx sender opts uid now).State = .Pending
        ∧ (newTransaction ethTx sender opts uid now).LatestTx = some ethTx) := by
  constructor
  · intro e hv
    rw [InsertInitial, hv]
  · intro hv
    refine ⟨?_, rfl, rfl⟩
    rw [InsertInitial, hv]

/-- C8 witness: `sampleOpts` is valid and inserting with it issues exactly the
one `Pending` record carrying the supplied transaction. -/
theorem claim_C8_insert_initial_witness :
    sampleOpts.validate = .ok ()
      ∧ (InsertInitial (.ok ()) { gasPrice := 40, chainID := 1, payload := 0 }
            sampleOpts 1 "tx-1" 0
          = (.ok (), [newTransaction { gasPrice := 40, chainID := 1, payload := 0 }
              1 sampleOpts "tx-1" 0])
        ∧ (newTransaction { gasPrice := 40, chainID := 1, payload := 0 }
            1 sampleOpts "tx-1" 0).State = .Pending
        ∧ (newTransaction { gasPrice := 40, chainID := 1, payload := 0 }
            1 sampleOpts "tx-1" 0).LatestTx
          = some { gasPrice := 40, chainID := 1, payload := 0 }) :=
  ⟨by decide,
    (claim_C8_insert_initial (.ok ()) { gasPrice := 40, chainID := 1, payload := 0 }
      sampleOpts 1 "tx-1" 0).2 (by decide)⟩

/-- C10: when the status query completes and the receipt maps to the
`Failed` blockchain status (mined but reverted), the check iteration issues no
persistence write and does not exit: the watcher continues with the unchanged
transaction. -/
theorem claim_C10_reverted_continues (signers : Signers) (tx : Transaction)
    (org : EthTx) (rcp : Receipt) (upsert : Except GoErr Unit)
    (hltx : tx.LatestTx = some org)
    (hfail : bcTxStatusFromReceipt rcp = .Failed) :
    watchStep signers tx (.checkTick (.ok false) (.ok rcp) upsert)
      = (.cont tx, [], []) := by
  simp [watchStep, getTxStatus, Transaction.getLatestTx, hltx, hfail]

/-- C10 witness: a reverted receipt (status 0) for `sampleTx` leaves the
watcher running with no write. -/
theorem claim_C10_reverted_continues_witness :
    sampleTx.LatestTx = some { gasPrice := 40, chainID := 1, payload := 0 }
      ∧ bcTxStatusFromReceipt { status := 0 } = .Failed
      ∧ watchStep [] sampleTx (.checkTick (.ok false) (.ok { status := 0 }) (.ok ()))
        = (.cont sampleTx, [], []) :=
  ⟨rfl, rfl,
    claim_C10_reverted_continues [] sampleTx
      { gasPrice := 40, chainID := 1, payload := 0 } { status := 0 } (.ok ()) rfl rfl⟩

/-- C4: when the overall timeout fires the watcher persists `Failed` and
exits, whatever the storage response; and when `watchAndIncrement` returned
with an error (for example a transient one) while the transaction is expired,
`tryWatch` persists `Failed` as well. -/
theorem claim_C4_timeout_fails (signers : Signers) (tx : Transaction) (now : ℤ)
    (hexp : tx.isExpired now = true) :
    (∀ upsert, ∃ res, watchStep signers tx (.timedOut upsert)
      = (.exited res, [{ tx with State := .Failed }], []))
    ∧ (∀ e upsert, tryWatchFinish tx now (some e) upsert
      = [{ tx with State := .Failed }]) := by
  constructor
  · intro upsert
    cases upsert with
    | ok _ => exact ⟨none, rfl⟩
    | error e => exact ⟨some (.wrap "failed marking transaction as failed" e), rfl⟩
  · intro e upsert
    rw [tryWatchFinish, if_pos hexp]
    cases upsert with
    | ok _ => rfl
    | error e2 => rfl

/-- C4 witness: `sampleTx` (deadline 100 from creation time 0) is expired at
time 1000; the timeout event and the transient-error epilogue both persist
exactly the `Failed` record. -/
theorem claim_C4_timeout_fails_witness :
    sampleTx.isExpired 1000 = true
      ∧ (∃ res, watchStep [] sampleTx (.timedOut (.ok ()))
          = (.exited res, [{ sampleTx with State := .Failed }], []))
      ∧ tryWatchFinish sampleTx 1000 (some (.other "rpc timeout")) (.ok ())
          = [{ sampleTx with State := .Failed }] :=
  ⟨by decide,
    (claim_C4_timeout_fails [] sampleTx 1000 (by decide)).1 (.ok ()),
    (claim_C4_timeout_fails [] sampleTx 1000 (by decide)).2 (.other "rpc timeout") (.ok ())⟩

/-- C1: the gas-increase operation computes the bumped price as the float
product of the current gas price and `PriceMultiplier` truncated to an integer
(`bigFloatTruncMul`); when it exceeds `MaxPrice` the transaction is persisted
`Failed`, an error is returned (the policy-violation error whenever the
failure upsert itself succeeds), and nothing is broadcast; consequently every
persisted `PriceIncreased` record and every broadcast transaction carries
exactly the computed price, which is at most `MaxPrice`.  The `hsig`
hypothesis states that registered signing capabilities do not alter the gas
price of what they sign. -/
theorem mem_failed_write_not_priceIncreased {tx w : Transaction}
    (hw : w ∈ [{ tx with State := TxState.Failed }])
    (hst : w.State = TxState.PriceIncreased) : False := by
  simp only [List.mem_singleton] at hw
  subst hw
  simp at hst

theorem claim_C1_max_price (signers : Signers) (tx : Transaction) (org : EthTx)
    (maxPrice : ℤ) (send upsert : Except GoErr Unit)
    (hltx : tx.LatestTx = some org)
    (hmax : tx.Opts.MaxPrice = some maxPrice)
    (hsig : ∀ p ∈ signers, ∀ t c t', p.2 t c = .ok t' → t'.gasPrice = t.gasPrice) :
    (maxPrice < bigFloatTruncMul tx.Opts.PriceMultiplier org.gasPrice →
      (increaseGasPrice signers tx send upsert).2.1 = [{ tx with State := .Failed }]
        ∧ (increaseGasPrice signers tx send upsert).2.2 = []
        ∧ (∃ e, (increaseGasPrice signers tx send upsert).1 = .error e)
        ∧ (upsert = .ok () →
            (increaseGasPrice signers tx send upsert).1
              = .error (.other "gas price limit reached")))
    ∧ (∀ w ∈ (increaseGasPrice signers tx send upsert).2.1,
        w.State = .PriceIncreased →
        ∃ t, w.LatestTx = some t
          ∧ t.gasPrice = bigFloatTruncMul tx.Opts.PriceMultiplier org.gasPrice
          ∧ t.gasPrice ≤ maxPrice)
    ∧ (∀ t ∈ (increaseGasPrice signers tx send upsert).2.2,
        t.gasPrice = bigFloatTruncMul tx.Opts.PriceMultiplier org.gasPrice
          ∧ t.gasPrice ≤ maxPrice) := by
  by_cases hcmp : maxPrice < bigFloatTruncMul tx.Opts.PriceMultiplier org.gasPrice
  · cases upsert with
    | ok u =>
      have hval : increaseGasPrice signers tx send (.ok u)
          = (.error (.other "gas price limit reached"),
             [{ tx with State := .Failed }], []) := by
        rw [increaseGasPrice]
        simp only [Transaction.getLatestTx, hltx, hmax, if_pos hcmp, transactionFailed]
      refine ⟨fun _ => ⟨by rw [hval], by rw [hval], ⟨_, by rw [hval]⟩, fun _ => by rw [hval]⟩,
        ?_, ?_⟩
      · intro w hw hst
        rw [hval] at hw
        exact (mem_failed_write_not_priceIncreased hw hst).elim
      · intro t ht
        rw [hval] at ht
        simp at ht
    | error e0 =>
      have hval : increaseGasPrice signers tx send (.error e0)
          = (.error (.wrap "failed marking transaction as failed" e0),
             [{ tx with State := .Failed }], []) := by
        rw [increaseGasPrice]
        simp only [Transaction.getLatestTx, hltx, hmax, if_pos hcmp, transactionFailed]
      refine ⟨fun _ => ⟨by rw [hval], by rw [hval], ⟨_, by rw [hval]⟩, fun h => by cases h⟩,
        ?_, ?_⟩
      · intro w hw hst
        rw [hval] at hw
        exact (mem_failed_write_not_priceIncreased hw hst).elim
      · intro t ht
        rw [hval] at ht
        simp at ht
  · have hle : bigFloatTruncMul tx.Opts.PriceMultiplier org.gasPrice ≤ maxPrice :=
      le_of_not_lt hcmp
    refine ⟨fun h => absurd h hcmp, ?_⟩
    cases hg : getSignerFunc signers tx.SenderAddressHex with
    | none =>
      have hval : (increaseGasPrice signers tx send upsert).2
          = ([{ tx with State := .Failed }], []) := by
        rw [increaseGasPrice]
        simp only [Transaction.getLatestTx, hltx, hmax, if_neg hcmp, signAndSend, hg,
          transactionFailed]
        cases upsert <;> rfl
      constructor
      · intro w hw hst
        rw [show (increaseGasPrice signers tx send upsert).2.1
            = [{ tx with State := TxState.Failed }] from congrArg Prod.fst hval] at hw
        exact (mem_failed_write_not_priceIncreased hw hst).elim
      · intro t ht
        rw [show (increaseGasPrice signers tx send upsert).2.2 = []
            from congrArg Prod.snd hval] at ht
        simp at ht
    | some signer =>
      obtain ⟨p, hp, hpf⟩ : ∃ p ∈ signers, p.2 = signer := by
        rw [getSignerFunc] at hg
        split at hg
        · rename_i hcond
          cases signers with
          | nil => simp at hcond
          | cons q rest =>
            refine ⟨q, by simp, ?_⟩
            simpa using hg
        · exact exists_of_lookup_eq_some hg
      cases hs : signer (rebuiledWithNewGasPrice org
          (bigFloatTruncMul tx.Opts.PriceMultiplier org.gasPrice)) tx.ChainID with
      | error e2 =>
        have hval : (increaseGasPrice signers tx send upsert).2
            = ([{ tx with State := .Failed }], []) := by
          rw [increaseGasPrice]
          simp only [Transaction.getLatestTx, hltx, hmax, if_neg hcmp, signAndSend, hg, hs,
            transactionFailed]
          cases upsert <;> rfl
        constructor
        · intro w hw hst
          rw [show (increaseGasPrice signers tx send upsert).2.1
              = [{ tx with State := TxState.Failed }] from congrArg Prod.fst hval] at hw
          exact (mem_failed_write_not_priceIncreased hw hst).elim
        · intro t ht
          rw [show (increaseGasPrice signers tx send upsert).2.2 = []
              from congrArg Prod.snd hval] at ht
          simp at ht
      | ok signedTx =>
        have hprice : signedTx.gasPrice
            = bigFloatTruncMul tx.Opts.PriceMultiplier org.gasPrice := by
          have := hsig p hp (rebuiledWithNewGasPrice org
            (bigFloatTruncMul tx.Opts.PriceMultiplier org.gasPrice)) tx.ChainID
            signedTx (by rw [hpf, hs])
          simpa [rebuiledWithNewGasPrice] using this
        cases send with
        | error e3 =>
          have hval : (increaseGasPrice signers tx (.error e3) upsert).2
              = ([{ tx with State := .Failed }], [signedTx]) := by
            rw [increaseGasPrice]
            simp only [Transaction.getLatestTx, hltx, hmax, if_neg hcmp, signAndSend, hg, hs,
              transactionFailed]
            cases upsert <;> rfl
          constructor
          · intro w hw hst
            rw [show (increaseGasPrice signers tx (.error e3) upsert).2.1
                = [{ tx with State := TxState.Failed }] from congrArg Prod.fst hval] at hw
            exact (mem_failed_write_not_priceIncreased hw hst).elim
          · intro t ht
            rw [show (increaseGasPrice signers tx (.error e3) upsert).2.2 = [signedTx]
                from congrArg Prod.snd hval] at ht
            simp only [List.mem_singleton] at ht
            subst ht
            exact ⟨hprice, hprice ▸ hle⟩
        | ok s0 =>
          have hval : (increaseGasPrice signers tx (.ok s0) upsert).2
              = ([{ tx with State := .PriceIncreased, LatestTx := some signedTx }],
                 [signedTx]) := by
            rw [increaseGasPrice]
            simp only [Transaction.getLatestTx, hltx, hmax, if_neg hcmp, signAndSend, hg, hs,
              transactionPriceIncreased]
            cases upsert <;> rfl
          constructor
          · intro w hw hst
            rw [show (increaseGasPrice signers tx (.ok s0) upsert).2.1
                = [{ tx with State := TxState.PriceIncreased, LatestTx := some signedTx }]
                from congrArg Prod.fst hval] at hw
            simp only [List.mem_singleton] at hw
            subst hw
            exact ⟨signedTx, rfl, hprice, hprice ▸ hle⟩
          · intro t ht
            rw [show (increaseGasPrice signers tx (.ok s0) upsert).2.2 = [signedTx]
                from congrArg Prod.snd hval] at ht
            simp only [List.mem_singleton] at ht
            subst ht
            exact ⟨hprice, hprice ▸ hle⟩

/-- C1 witness: bumping `sampleTxHigh` (gas price 60, multiplier 2, ceiling
100) computes 120 > 100: the record is persisted `Failed`, nothing is
broadcast, and the policy-violation error is returned. -/
theorem claim_C1_max_price_witness :
    (100 : ℤ) < bigFloatTruncMul sampleTxHigh.Opts.PriceMultiplier 60
      ∧ (increaseGasPrice [(1, sigOk)] sampleTxHigh (.ok ()) (.ok ())).2.1
        = [{ sampleTxHigh with State := .Failed }]
      ∧ (increaseGasPrice [(1, sigOk)] sampleTxHigh (.ok ()) (.ok ())).2.2 = []
      ∧ (increaseGasPrice [(1, sigOk)] sampleTxHigh (.ok ()) (.ok ())).1
        = .error (.other "gas price limit reached") := by
  have hsig : ∀ p ∈ [((1 : ℕ), sigOk)], ∀ t c t', p.2 t c = .ok t' →
      t'.gasPrice = t.gasPrice := by
    rintro p hp t c t' ht
    simp only [List.mem_singleton] at hp
    subst hp
    simp only [sigOk] at ht
    cases ht
    rfl
  have hlt : (100 : ℤ) < bigFloatTruncMul sampleTxHigh.Opts.PriceMultiplier 60 := by decide
  have h := (claim_C1_max_price [(1, sigOk)] sampleTxHigh
    { gasPrice := 60, chainID := 1, payload := 0 } 100 (.ok ()) (.ok ())
    rfl rfl hsig).1 hlt
  exact ⟨hlt, h.1, h.2.1, h.2.2.2 rfl⟩

/-- C5 (evaluation at the failing input): on an increase tick where signing
fails (no signer is registered for the sender) and the failure upsert
succeeds, the iteration persists `Failed` — but the watcher does **not**
exit: `increaseGasPrice` returns the zero-value `Transaction{}` with a nil
error, so the loop continues with the empty transaction, and a later timeout
event upserts an empty `Failed` record with unique id "".  The claim (and the
spec) say the watcher exits with no further iterations. -/
theorem claim_C5_sign_failure_continues :
    watchStep [] sampleTx (.incTick (.ok ()) (.ok ()) (.ok ()))
      = (.cont zeroTransaction, [{ sampleTx with State := .Failed }], [])
    ∧ watchRun [] sampleTx [.incTick (.ok ()) (.ok ()) (.ok ()), .timedOut (.ok ())]
      = ([{ sampleTx with State := .Failed },
          { zeroTransaction with State := .Failed }], some none) := by
  constructor
  · decide
  · decide

/-- C3 counterexample: a transient RPC error (classified recoverable, no
write issued by the iteration itself) does **not** always leave the persisted
state unchanged: when the transaction is expired, `tryWatch`'s error handler
persists `Failed`. -/
theorem claim_C3_counterexample :
    isBlockchainErrorUnhandleable
        (.wrap "failed to get transaction by hash" (.other "connection refused")) = false
      ∧ watchStep [] sampleTx
          (.checkTick (.error (.other "connection refused")) (.ok { status := 1 }) (.ok ()))
        = (.exited (some (.wrap "failed to get transaction by hash"
            (.other "connection refused"))), [], [])
      ∧ sampleTx.isExpired 1000 = true
      ∧ tryWatchFinish sampleTx 1000
          (some (.wrap "failed to get transaction by hash" (.other "connection refused")))
          (.ok ())
        = [{ sampleTx with State := .Failed }] := by
  refine ⟨by decide, by decide, by decide, by decide⟩

/-- C3 (amended): the classification predicate marks an error unrecoverable
exactly when it indicates nonce-too-high, nonce-too-low or
transaction-not-found — one of the three sentinels anywhere along its wrap
chain, or a once-unwrapped error carrying exactly a nonce-error message; on a
check tick, an unrecoverable status error forces a persisted `Failed` with no
retry, while every other error leaves the iteration without any persistence
write (the persisted state then stays unchanged unless the overall timeout has
already elapsed, in which case `tryWatch` persists `Failed`, cf. C4). -/
theorem claim_C3_error_classification (e : GoErr) :
    (isBlockchainErrorUnhandleable e = true ↔
      (errIs e .nonceTooHigh = true ∨ errIs e .nonceTooLow = true
        ∨ errIs e .notFound = true
        ∨ ∃ p u, e = .wrap p u
            ∧ (u.errMsg = "nonce too low" ∨ u.errMsg = "nonce too high")))
    ∧ (∀ (signers : Signers) (tx : Transaction) byHash receipt upsert,
        getTxStatus tx byHash receipt = .error e →
        (isBlockchainErrorUnhandleable e = false →
          watchStep signers tx (.checkTick byHash receipt upsert)
            = (.exited (some e), [], []))
        ∧ (isBlockchainErrorUnhandleable e = true →
          (∃ res, watchStep signers tx (.checkTick byHash receipt upsert)
            = (.exited res, [{ tx with State := .Failed }], [])))) := by
  constructor
  · rw [isBlockchainErrorUnhandleable]
    by_cases hs : (errIs e .nonceTooHigh || errIs e .nonceTooLow || errIs e .notFound) = true
    · rw [if_pos hs]
      simp only [Bool.or_eq_true] at hs
      simp only [true_iff]
      rcases hs with (h | h) | h
      · exact Or.inl h
      · exact Or.inr (Or.inl h)
      · exact Or.inr (Or.inr (Or.inl h))
    · rw [if_neg hs]
      simp only [Bool.or_eq_true, not_or] at hs
      obtain ⟨⟨h1, h2⟩, h3⟩ := hs
      cases e with
      | sentinel s =>
        simp only [GoErr.unwrapErr]
        constructor
        · intro h
          simp at h
        · rintro (h | h | h | ⟨p', u', he, hmsg⟩)
          · exact absurd h h1
          · exact absurd h h2
          · exact absurd h h3
          · simp at he
      | other m =>
        simp only [GoErr.unwrapErr]
        constructor
        · intro h
          simp at h
        · rintro (h | h | h | ⟨p', u', he, hmsg⟩)
          · exact absurd h h1
          · exact absurd h h2
          · exact absurd h h3
          · simp at he
      | wrap p inner =>
        simp only [GoErr.unwrapErr, Bool.or_eq_true, beq_iff_eq]
        constructor
        · intro h
          exact Or.inr (Or.inr (Or.inr ⟨p, inner, rfl, h⟩))
        · rintro (h | h | h | ⟨p', u', he, hmsg⟩)
          · exact absurd h h1
          · exact absurd h h2
          · exact absurd h h3
          · injection he with hp hu
            subst hp
            subst hu
            exact hmsg
  · intro signers tx byHash receipt upsert hst
    constructor
    · intro hclass
      rw [watchStep, hst]
      simp [hclass]
    · intro hclass
      cases upsert with
      | ok u =>
        refine ⟨none, ?_⟩
        rw [watchStep, hst]
        simp [hclass, transactionFailed]
      | error e2 =>
        refine ⟨some (.wrap "failed marking transaction as failed" e2), ?_⟩
        rw [watchStep, hst]
        simp [hclass, transactionFailed]

/-- Wrapping a sane storage error never produces an unhandleable error:
the wrap chain carries no sentinel, and the once-unwrapped message is not a
nonce message. -/
theorem wrap_sane_not_unhandleable (m : String) (e : GoErr)
    (h : saneStorageErr e = true) :
    isBlockchainErrorUnhandleable (.wrap m e) = false := by
  simp only [saneStorageErr, Bool.not_eq_eq_eq_not, Bool.not_true,
    Bool.or_eq_false_iff, beq_eq_false_iff_ne] at h
  obtain ⟨⟨⟨⟨h1, h2⟩, h3⟩, h4⟩, h5⟩ := h
  simp [isBlockchainErrorUnhandleable, errIs, GoErr.unwrapErr, h1, h2, h3, h4, h5]

/-- Case analysis of `increaseGasPrice` under a sane upsert response: it
either returns an error that is never classified unhandleable (having issued
at most one write: nothing, the `Failed` record, or the `PriceIncreased`
record whose own upsert failed), or returns the zero-value `Transaction{}`
with a nil error after persisting `Failed` (the sign/broadcast-failure path),
or succeeds with the `PriceIncreased` record it persisted. -/
theorem increaseGasPrice_cases (signers : Signers) (tx : Transaction)
    (send upsert : Except GoErr Unit) (hup : saneUpsert upsert = true) :
    (∃ e ws sent, increaseGasPrice signers tx send upsert = (.error e, ws, sent)
      ∧ isBlockchainErrorUnhandleable e = false
      ∧ (ws = [] ∨ ws = [{ tx with State := .Failed }]
          ∨ ∃ t, ws = [{ tx with State := .PriceIncreased, LatestTx := some t }]))
    ∨ (∃ sent, increaseGasPrice signers tx send upsert
        = (.ok zeroTransaction, [{ tx with State := .Failed }], sent))
    ∨ (∃ t sent, increaseGasPrice signers tx send upsert
        = (.ok { tx with State := .PriceIncreased, LatestTx := some t },
           [{ tx with State := .PriceIncreased, LatestTx := some t }], sent)) := by
  cases hltx : tx.LatestTx with
  | none =>
    refine Or.inl ⟨.other "failed to unmarshal latest transaction", [], [], ?_,
      by decide, Or.inl rfl⟩
    rw [increaseGasPrice]
    simp only [Transaction.getLatestTx, hltx]
  | some org =>
    cases hmax : tx.Opts.MaxPrice with
    | none =>
      refine Or.inl ⟨.other "runtime panic: nil max price", [], [], ?_,
        by decide, Or.inl rfl⟩
      rw [increaseGasPrice]
      simp only [Transaction.getLatestTx, hltx, hmax]
    | some maxPrice =>
      by_cases hcmp : maxPrice < bigFloatTruncMul tx.Opts.PriceMultiplier org.gasPrice
      · cases upsert with
        | ok u =>
          refine Or.inl ⟨.other "gas price limit reached", _, [], ?_, by decide,
            Or.inr (Or.inl rfl)⟩
          rw [increaseGasPrice]
          simp only [Transaction.getLatestTx, hltx, hmax, if_pos hcmp, transactionFailed]
        | error e0 =>
          refine Or.inl ⟨.wrap "failed marking transaction as failed" e0, _, [], ?_,
            wrap_sane_not_unhandleable _ e0 hup, Or.inr (Or.inl rfl)⟩
          rw [increaseGasPrice]
          simp only [Transaction.getLatestTx, hltx, hmax, if_pos hcmp, transactionFailed]
      · cases hg : getSignerFunc signers tx.SenderAddressHex with
        | none =>
          cases upsert with
          | ok u =>
            refine Or.inr (Or.inl ⟨[], ?_⟩)
            rw [increaseGasPrice]
            simp only [Transaction.getLatestTx, hltx, hmax, if_neg hcmp, signAndSend, hg,
              transactionFailed]
          | error e0 =>
            refine Or.inl ⟨.wrap "failed marking transaction as failed" e0, _, [], ?_,
              wrap_sane_not_unhandleable _ e0 hup, Or.inr (Or.inl rfl)⟩
            rw [increaseGasPrice]
            simp only [Transaction.getLatestTx, hltx, hmax, if_neg hcmp, signAndSend, hg,
              transactionFailed]
        | some signer =>
          cases hs : signer (rebuiledWithNewGasPrice org
              (bigFloatTruncMul tx.Opts.PriceMultiplier org.gasPrice)) tx.ChainID with
          | error e2 =>
            cases upsert with
            | ok u =>
              refine Or.inr (Or.inl ⟨[], ?_⟩)
              rw [increaseGasPrice]
              simp only [Transaction.getLatestTx, hltx, hmax, if_neg hcmp, signAndSend, hg,
                hs, transactionFailed]
            | error e0 =>
              refine Or.inl ⟨.wrap "failed marking transaction as failed" e0, _, [], ?_,
                wrap_sane_not_unhandleable _ e0 hup, Or.inr (Or.inl rfl)⟩
              rw [increaseGasPrice]
              simp only [Transaction.getLatestTx, hltx, hmax, if_neg hcmp, signAndSend, hg,
                hs, transactionFailed]
          | ok signedTx =>
            cases send with
            | error e3 =>
              cases upsert with
              | ok u =>
                refine Or.inr (Or.inl ⟨[signedTx], ?_⟩)
                rw [increaseGasPrice]
                simp only [Transaction.getLatestTx, hltx, hmax, if_neg hcmp, signAndSend, hg,
                  hs, transactionFailed]
              | error e0 =>
                refine Or.inl ⟨.wrap "failed marking transaction as failed" e0, _, [signedTx],
                  ?_, wrap_sane_not_unhandleable _ e0 hup, Or.inr (Or.inl rfl)⟩
                rw [increaseGasPrice]
                simp only [Transaction.getLatestTx, hltx, hmax, if_neg hcmp, signAndSend, hg,
                  hs, transactionFailed]
            | ok s0 =>
              cases upsert with
              | ok u =>
                refine Or.inr (Or.inr ⟨signedTx, [signedTx], ?_⟩)
                rw [increaseGasPrice]
                simp only [Transaction.getLatestTx, hltx, hmax, if_neg hcmp, signAndSend, hg,
                  hs, transactionPriceIncreased]
              | error e0 =>
                refine Or.inl ⟨.wrap "failed to update transaction after price increase" e0,
                  _, [signedTx], ?_, wrap_sane_not_unhandleable _ e0 hup,
                  Or.inr (Or.inr ⟨signedTx, rfl⟩)⟩
                rw [increaseGasPrice]
                simp only [Transaction.getLatestTx, hltx, hmax, if_neg hcmp, signAndSend, hg,
                  hs, transactionPriceIncreased]

/-- Case analysis of one watcher iteration under a sane storage response:
either the iteration exits having issued at most one write (nothing, the
`Failed` record, the `Succeed` record, or a `PriceIncreased` record), or it
continues unchanged with no write, or it continues with the zero-value
transaction after persisting `Failed` (the sign/broadcast-failure slip), or
it continues with the `PriceIncreased` record it persisted. -/
theorem watchStep_cases (signers : Signers) (tx : Transaction) (ev : WatchEvent)
    (hsane : eventSaneB ev = true) :
    (∃ res ws sent, watchStep signers tx ev = (.exited res, ws, sent)
      ∧ (ws = [] ∨ ws = [{ tx with State := .Failed }]
          ∨ ws = [{ tx with State := .Succeed }]
          ∨ ∃ t, ws = [{ tx with State := .PriceIncreased, LatestTx := some t }]))
    ∨ (∃ sent, watchStep signers tx ev = (.cont tx, [], sent))
    ∨ (∃ sent, watchStep signers tx ev
        = (.cont zeroTransaction, [{ tx with State := .Failed }], sent))
    ∨ (∃ t sent, watchStep signers tx ev
        = (.cont { tx with State := .PriceIncreased, LatestTx := some t },
           [{ tx with State := .PriceIncreased, LatestTx := some t }], sent)) := by
  cases ev with
  | stop => exact Or.inl ⟨none, [], [], rfl, Or.inl rfl⟩
  | checkTick byHash receipt upsert =>
    cases hst : getTxStatus tx byHash receipt with
    | error e =>
      by_cases hcl : isBlockchainErrorUnhandleable e = true
      · cases upsert with
        | ok u =>
          refine Or.inl ⟨none, _, [], ?_, Or.inr (Or.inl rfl)⟩
          rw [watchStep, hst]
          simp [hcl, transactionFailed]
        | error e0 =>
          refine Or.inl ⟨some (.wrap "failed marking transaction as failed" e0), _, [],
            ?_, Or.inr (Or.inl rfl)⟩
          rw [watchStep, hst]
          simp [hcl, transactionFailed]
      · refine Or.inl ⟨some e, [], [], ?_, Or.inl rfl⟩
        rw [watchStep, hst]
        simp [hcl]
    | ok status =>
      by_cases hsucc : status = BCTxStatus.Succeeded
      · cases upsert with
        | ok u =>
          refine Or.inl ⟨none, _, [], ?_, Or.inr (Or.inr (Or.inl rfl))⟩
          rw [watchStep, hst]
          simp [hsucc, transactionSuccess]
        | error e0 =>
          refine Or.inl ⟨some (.wrap "failed marking transaction succeed" e0), _, [],
            ?_, Or.inr (Or.inr (Or.inl rfl))⟩
          rw [watchStep, hst]
          simp [hsucc, transactionSuccess]
      · refine Or.inr (Or.inl ⟨[], ?_⟩)
        rw [watchStep, hst]
        simp [hsucc]
  | incTick send upsert1 upsert2 =>
    have hup1 : saneUpsert upsert1 = true := hsane
    rcases increaseGasPrice_cases signers tx send upsert1 hup1 with
      ⟨e, ws, sent, heq, hnh, hws⟩ | ⟨sent, heq⟩ | ⟨t, sent, heq⟩
    · refine Or.inl ⟨some e, ws, sent, ?_, ?_⟩
      · rw [watchStep, heq]
        simp [hnh]
      · rcases hws with rfl | rfl | ⟨t, rfl⟩
        · exact Or.inl rfl
        · exact Or.inr (Or.inl rfl)
        · exact Or.inr (Or.inr (Or.inr ⟨t, rfl⟩))
    · refine Or.inr (Or.inr (Or.inl ⟨sent, ?_⟩))
      rw [watchStep, heq]
    · refine Or.inr (Or.inr (Or.inr ⟨t, sent, ?_⟩))
      rw [watchStep, heq]
  | timedOut upsert =>
    cases upsert with
    | ok u =>
      refine Or.inl ⟨none, _, [], ?_, Or.inr (Or.inl rfl)⟩
      rw [watchStep]
      simp [transactionFailed]
    | error e0 =>
      refine Or.inl ⟨some (.wrap "failed marking transaction as failed" e0), _, [],
        ?_, Or.inr (Or.inl rfl)⟩
      rw [watchStep]
      simp [transactionFailed]

/-- A transaction whose `LatestTx` does not decode (in particular the
zero-value `Transaction{}`) exits the watcher on its next event, writing at
most its own `Failed` record (on timeout). -/
theorem watchStep_noLatest (signers : Signers) (tx : Transaction) (ev : WatchEvent)
    (h : tx.LatestTx = none) :
    ∃ res ws sent, watchStep signers tx ev = (.exited res, ws, sent)
      ∧ (ws = [] ∨ ws = [{ tx with State := .Failed }]) := by
  cases ev with
  | stop => exact ⟨none, [], [], rfl, Or.inl rfl⟩
  | checkTick byHash receipt upsert =>
    have hst : getTxStatus tx byHash receipt
        = .error (.wrap "cannot get tx status, malformed internal tx object"
            (.other "failed to unmarshal latest transaction")) := by
      simp only [getTxStatus, Transaction.getLatestTx, h]
    refine ⟨some (.wrap "cannot get tx status, malformed internal tx object"
      (.other "failed to unmarshal latest transaction")), [], [], ?_, Or.inl rfl⟩
    rw [watchStep, hst]
    simp [show isBlockchainErrorUnhandleable
      (.wrap "cannot get tx status, malformed internal tx object"
        (.other "failed to unmarshal latest transaction")) = false by decide]
  | incTick send upsert1 upsert2 =>
    have hinc : increaseGasPrice signers tx send upsert1
        = (.error (.other "failed to unmarshal latest transaction"), [], []) := by
      rw [increaseGasPrice]
      simp only [Transaction.getLatestTx, h]
    refine ⟨some (.other "failed to unmarshal latest transaction"), [], [], ?_, Or.inl rfl⟩
    rw [watchStep, hinc]
    simp [show isBlockchainErrorUnhandleable
      (.other "failed to unmarshal latest transaction") = false by decide]
  | timedOut upsert =>
    cases upsert with
    | ok u =>
      refine ⟨none, _, [], ?_, Or.inr rfl⟩
      rw [watchStep]
      simp [transactionFailed]
    | error e0 =>
      refine ⟨some (.wrap "failed marking transaction as failed" e0), _, [],
        ?_, Or.inr rfl⟩
      rw [watchStep]
      simp [transactionFailed]

/-- A whole watcher run on a transaction whose `LatestTx` does not decode
writes at most its own `Failed` record. -/
theorem watchRun_noLatest (signers : Signers) (tx : Transaction)
    (evs : List WatchEvent) (h : tx.LatestTx = none) :
    (watchRun signers tx evs).1 = []
      ∨ (watchRun signers tx evs).1 = [{ tx with State := .Failed }] := by
  cases evs with
  | nil => exact Or.inl rfl
  | cons ev evs =>
    obtain ⟨res, ws, sent, heq, hws⟩ := watchStep_noLatest signers tx ev h
    simp only [watchRun, heq]
    exact hws

/-- Core invariant behind C2: along any watcher run (with sane storage
responses, on a transaction with a nonempty unique id), no write that follows
a terminal-state write ever carries the same unique id. -/
theorem watchRun_pairwise (signers : Signers) :
    ∀ (evs : List WatchEvent) (tx : Transaction),
    (∀ ev ∈ evs, eventSaneB ev = true) → tx.UniqueID ≠ "" →
    List.Pairwise
      (fun a b => (a.State = TxState.Failed ∨ a.State = TxState.Succeed) →
        b.UniqueID ≠ a.UniqueID)
      (watchRun signers tx evs).1
  | [], tx, _, _ => by simp [watchRun]
  | ev :: evs, tx, hsane, huid => by
    rcases watchStep_cases signers tx ev (hsane ev (by simp)) with
      ⟨res, ws, sent, heq, hws⟩ | ⟨sent, heq⟩ | ⟨sent, heq⟩ | ⟨t, sent, heq⟩
    · simp only [watchRun, heq]
      rcases hws with rfl | rfl | rfl | ⟨t, rfl⟩ <;> simp
    · simp only [watchRun, heq]
      have ih := watchRun_pairwise signers evs tx
        (fun e he => hsane e (by simp [he])) huid
      simpa using ih
    · simp only [watchRun, heq, List.singleton_append]
      rw [List.pairwise_cons]
      constructor
      · intro b hb _
        rcases watchRun_noLatest signers zeroTransaction evs rfl with hz | hz
        · rw [hz] at hb
          simp at hb
        · rw [hz] at hb
          simp only [List.mem_singleton] at hb
          subst hb
          show ({ zeroTransaction with State := TxState.Failed }).UniqueID
            ≠ ({ tx with State := TxState.Failed }).UniqueID
          intro hcontra
          exact huid (by simpa [zeroTransaction] using hcontra.symm)
      · rcases watchRun_noLatest signers zeroTransaction evs rfl with hz | hz
        · rw [hz]
          exact List.Pairwise.nil
        · rw [hz]
          exact List.pairwise_singleton _ _
    · simp only [watchRun, heq, List.singleton_append]
      rw [List.pairwise_cons]
      constructor
      · intro b _ hterm
        rcases hterm with hterm | hterm <;> simp at hterm
      · have ih := watchRun_pairwise signers evs
          { tx with State := TxState.PriceIncreased, LatestTx := some t }
          (fun e he => hsane e (by simp [he])) (by simpa using huid)
        exact ih

/-- C2 counterexample: after a watcher persists a terminal state, a
subsequent upsert for the same unique id *is* possible.  On an increase tick
of the expired `sampleTxHigh` (creation time 0, deadline 100, observed at
time 1000) whose bump 120 exceeds the ceiling 100, `increaseGasPrice`
persists `Failed` and the loop exits with the policy error — which is not
classified unhandleable, so `tryWatch`'s epilogue sees an error on an expired
transaction and issues a second `Failed` upsert for the same unique id: the
combined write sequence violates the claimed no-write-after-terminal
invariant. -/
theorem claim_C2_counterexample :
    watchRun [] sampleTxHigh [.incTick (.ok ()) (.ok ()) (.ok ())]
      = ([{ sampleTxHigh with State := .Failed }],
         some (some (.other "gas price limit reached")))
    ∧ sampleTxHigh.isExpired 1000 = true
    ∧ tryWatchFinish sampleTxHigh 1000
        (some (.other "gas price limit reached")) (.ok ())
      = [{ sampleTxHigh with State := .Failed }]
    ∧ ¬ List.Pairwise
        (fun a b => (a.State = TxState.Failed ∨ a.State = TxState.Succeed) →
          b.UniqueID ≠ a.UniqueID)
        ((watchRun [] sampleTxHigh [.incTick (.ok ()) (.ok ()) (.ok ())]).1
          ++ tryWatchFinish sampleTxHigh 1000
              (some (.other "gas price limit reached")) (.ok ())) := by
  refine ⟨by decide, by decide, by decide, by decide⟩

/-- C2 (amended): terminal transactions are force-skipped by the poll loop
(so no watcher is started for them and no write originates from them); along
any watcher run no persistence write ever follows a terminal-state write for
the same unique id; and the only write `tryWatch`'s epilogue can add after
the loop exits is a single re-mark of that same transaction as `Failed`.
Hypotheses: the storage oracle reports sane errors (`eventSaneB`) and the
transaction carries a nonempty unique id. -/
theorem claim_C2_terminal_states (signers : Signers) (txs : List Transaction)
    (tx : Transaction) (evs : List WatchEvent)
    (hsane : ∀ ev ∈ evs, eventSaneB ev = true) (huid : tx.UniqueID ≠ "") :
    ((tx.State = TxState.Failed ∨ tx.State = TxState.Succeed) →
      processShouldWatch tx = false ∧ tx ∉ runProcessSelect txs)
    ∧ List.Pairwise
        (fun a b => (a.State = TxState.Failed ∨ a.State = TxState.Succeed) →
          b.UniqueID ≠ a.UniqueID)
        (watchRun signers tx evs).1
    ∧ (∀ now watchRes upsert, tryWatchFinish tx now watchRes upsert = []
        ∨ tryWatchFinish tx now watchRes upsert = [{ tx with State := .Failed }]) := by
  refine ⟨?_, ?_, ?_⟩
  · intro hterm
    have hskip : processShouldWatch tx = false := by
      rcases hterm with h | h <;> simp [processShouldWatch, h]
    refine ⟨hskip, ?_⟩
    intro hmem
    have := (List.mem_filter.mp hmem).2
    rw [hskip] at this
    cases this
  · exact watchRun_pairwise signers evs tx hsane huid
  · intro now watchRes upsert
    cases watchRes with
    | none => exact Or.inl rfl
    | some e =>
      by_cases hx : tx.isExpired now = true
      · refine Or.inr ?_
        rw [tryWatchFinish, if_pos hx]
        cases upsert <;> rfl
      · refine Or.inl ?_
        rw [tryWatchFinish, if_neg hx]

/-- C2 witness: a `Failed` transaction is skipped by the poll batch, a
concrete run (an increase tick whose signing fails, then a timeout) never
writes the same unique id after a terminal write, and the epilogue on that
transaction writes nothing or its `Failed` re-mark. -/
theorem claim_C2_terminal_states_witness :
    (({ sampleTx with State := TxState.Failed } : Transaction).State = TxState.Failed
        ∨ ({ sampleTx with State := TxState.Failed } : Transaction).State = TxState.Succeed)
      ∧ (processShouldWatch { sampleTx with State := TxState.Failed } = false
        ∧ { sampleTx with State := TxState.Failed }
            ∉ runProcessSelect [{ sampleTx with State := TxState.Failed }])
      ∧ List.Pairwise
          (fun a b => (a.State = TxState.Failed ∨ a.State = TxState.Succeed) →
            b.UniqueID ≠ a.UniqueID)
          (watchRun [] sampleTx
            [.incTick (.ok ()) (.ok ()) (.ok ()), .timedOut (.ok ())]).1
      ∧ (tryWatchFinish sampleTx 1000 (some (.other "boom")) (.ok ()) = []
        ∨ tryWatchFinish sampleTx 1000 (some (.other "boom")) (.ok ())
          = [{ sampleTx with State := .Failed }]) := by
  have h1 := claim_C2_terminal_states [] [{ sampleTx with State := TxState.Failed }]
    { sampleTx with State := TxState.Failed } [] (by simp) (by decide)
  have h2 := claim_C2_terminal_states [] []
    sampleTx [.incTick (.ok ()) (.ok ()) (.ok ()), .timedOut (.ok ())]
    (by intro ev hev; fin_cases hev <;> decide) (by decide)
  exact ⟨Or.inl rfl, h1.1 (Or.inl rfl), h2.2.1,
    h2.2.2 1000 (some (.other "boom")) (.ok ())⟩

/-- C3 witness: the amended classification applied to a transaction-not-found
error wrapped once (unrecoverable: persists `Failed`), evaluated on a check
tick of `sampleTx`. -/
theorem claim_C3_error_classification_witness :
    getTxStatus sampleTx (.error (.sentinel .notFound)) (.ok { status := 1 })
        = .error (.wrap "failed to get transaction by hash" (.sentinel .notFound))
      ∧ isBlockchainErrorUnhandleable
          (.wrap "failed to get transaction by hash" (.sentinel .notFound)) = true
      ∧ (∃ res, watchStep [] sampleTx
          (.checkTick (.error (.sentinel .notFound)) (.ok { status := 1 }) (.ok ()))
          = (.exited res, [{ sampleTx with State := .Failed }], [])) :=
  ⟨by decide, by decide,
    ((claim_C3_error_classification
        (.wrap "failed to get transaction by hash" (.sentinel .notFound))).2
      [] sampleTx (.error (.sentinel .notFound)) (.ok { status := 1 }) (.ok ())
      (by decide)).2 (by decide)⟩

end Transfer
